import Mathlib

/-!
Shallow embedding of `src/donation-rs/contract/src/lib.rs`, a NEAR donation
contract compiled for the wasm32 target (so `usize` is 32 bits wide).

Modelling decisions, all read off the source:
* `AccountId` is a string.
* `u128` amounts are `Nat` together with an explicit bound `U128_BOUND = 2 ^ 128`
  wherever overflow matters; `u128 as usize` truncates modulo `USIZE_BOUND = 2 ^ 32`.
* `near_sdk::collections::UnorderedMap` keeps its keys in a vector in insertion
  order and `insert` on an existing key overwrites the value in place, so with no
  removals in the contract it is an association list whose iteration order is the
  order of first insertion (`mapGet` / `mapInsert` below).
* A NEAR call that panics aborts with no state change, so `donate` returns
  `Except`: the `.error` outcome carries no new state and no transfer.
* The `Promise::new(beneficiary).transfer(net)` side effect is the `Transfer`
  value returned alongside the updated state.
-/

abbrev AccountId := String

/-- Constant `STORAGE_COST` from the source: `1_000_000_000_000_000_000_000`. -/
def STORAGE_COST : Nat := 1000000000000000000000

/-- One more than the largest `u128` value. -/
def U128_BOUND : Nat := 2 ^ 128

/-- One more than the largest wasm32 `usize` value; `x as usize` is `x % USIZE_BOUND`. -/
def USIZE_BOUND : Nat := 2 ^ 32

/-- Lookup in the association list modelling `UnorderedMap::get`. -/
def mapGet : List (AccountId × Nat) → AccountId → Option Nat
  | [], _ => none
  | (k, v) :: rest, a => if k = a then some v else mapGet rest a

/-- Insert modelling `UnorderedMap::insert`: overwrite the value at an existing
key in place, otherwise append the new entry at the end. -/
def mapInsert : List (AccountId × Nat) → AccountId → Nat → List (AccountId × Nat)
  | [], a, v => [(a, v)]
  | (k, w) :: rest, a, v =>
    if k = a then (a, v) :: rest else (k, w) :: mapInsert rest a v

/-- The contract state: `beneficiary` and the `donations` map. -/
structure Contract where
  beneficiary : AccountId
  donations : List (AccountId × Nat)
deriving Repr, DecidableEq

/-- Constructor `new`: empty donations map, the given beneficiary. -/
def Contract.new (beneficiary : AccountId) : Contract :=
  { beneficiary := beneficiary, donations := [] }

/-- The two ways `donate` can abort. -/
inductive DonateError where
  | insufficientAttachment
  | overflow
deriving Repr, DecidableEq

/-- The transfer instruction issued by `donate`. -/
structure Transfer where
  receiver : AccountId
  amount : Nat
deriving Repr, DecidableEq

/-- Modelled from the spec: the build profile that governs integer overflow in
`donate` lives in the workspace `Cargo.toml`, which is not under `src/`
(only `lib.rs` is). The spec states that an accumulated balance exceeding the
representable `u128` range must fail with `Overflow`, not silently wrap, so the
`u128` addition `current_donation += donation_amount` is modelled as this
checked addition. -/
def checked_add_u128 (a b : Nat) : Option Nat :=
  if U128_BOUND ≤ a + b then none else some (a + b)

/-- Method `donate`: check the attached deposit against `STORAGE_COST`, subtract
the fee, add the net amount to the caller entry (checked, see
`checked_add_u128`), and issue a transfer of the net amount to the
beneficiary. -/
def donate (c : Contract) (attached_deposit : Nat) (donor : AccountId) :
    Except DonateError (Contract × Transfer) :=
  if attached_deposit < STORAGE_COST then
    .error .insufficientAttachment
  else
    let donation_amount := attached_deposit - STORAGE_COST
    let current := (mapGet c.donations donor).getD 0
    match checked_add_u128 current donation_amount with
    | none => .error .overflow
    | some current_donation =>
      .ok ({ c with donations := mapInsert c.donations donor current_donation },
           { receiver := c.beneficiary, amount := donation_amount })

/-- A `donate` call at the transaction level: a panic reverts, so the error
outcomes keep the old state and issue no transfer. -/
def step_donate (c : Contract) (attached_deposit : Nat) (donor : AccountId) :
    Contract × Option Transfer :=
  match donate c attached_deposit donor with
  | .ok (c', t) => (c', some t)
  | .error _ => (c, none)

/-- Method `get_donation_for_account`: the stored amount, defaulting to 0. -/
def get_donation_for_account (c : Contract) (account_id : AccountId) : Nat :=
  (mapGet c.donations account_id).getD 0

/-- Method `total_donations`: the number of entries in the map. -/
def total_donations (c : Contract) : Nat :=
  c.donations.length

/-- Method `get_donations`: paginate the donations. The `u128` start index and
the `u64` limit are both cast to the 32-bit `usize` with `as`, which truncates
modulo `2 ^ 32`. -/
def get_donations (c : Contract) (from_index : Option Nat) (limit : Option Nat) :
    List (AccountId × Nat) :=
  let start := from_index.getD 0
  (c.donations.drop (start % USIZE_BOUND)).take ((limit.getD 50) % USIZE_BOUND)

/-- Method `beneficiary` (the getter). -/
def beneficiary (c : Contract) : AccountId :=
  c.beneficiary

/-- Method `change_beneficiary`: replace the beneficiary unconditionally. -/
def change_beneficiary (c : Contract) (b : AccountId) : Contract :=
  { c with beneficiary := b }

/-- A read call through `&self`: `get_donation_for_account` together with the
state it leaves behind. -/
def read_lookup (c : Contract) (account_id : AccountId) : Nat × Contract :=
  (get_donation_for_account c account_id, c)

/-- A read call through `&self`: `total_donations` together with the state it
leaves behind. -/
def read_count (c : Contract) : Nat × Contract :=
  (total_donations c, c)

/-- A read call through `&self`: `get_donations` together with the state it
leaves behind. -/
def read_list (c : Contract) (s l : Option Nat) : List (AccountId × Nat) × Contract :=
  (get_donations c s l, c)

/-- Replay a sequence of `donate` calls, each given as (donor, attached
deposit); a failed call leaves the state unchanged. -/
def runDonations (c : Contract) : List (AccountId × Nat) → Contract
  | [] => c
  | (d, amt) :: rest =>
    match donate c amt d with
    | .ok (c', _) => runDonations c' rest
    | .error _ => runDonations c rest

/-- The sub-sequence of a call sequence consisting of the calls that succeed,
replaying state exactly as `runDonations` does. -/
def successEvents (c : Contract) : List (AccountId × Nat) → List (AccountId × Nat)
  | [] => []
  | (d, amt) :: rest =>
    match donate c amt d with
    | .ok (c', _) => (d, amt) :: successEvents c' rest
    | .error _ => successEvents c rest

/-- Specification-side sum: total of (attached − fee) over the calls of `evts`
made by `id`. -/
def netSum (id : AccountId) (evts : List (AccountId × Nat)) : Nat :=
  ((evts.filter (fun e => e.1 = id)).map (fun e => e.2 - STORAGE_COST)).sum

/-! ### Helper lemmas -/

lemma donate_err_of_lt (c : Contract) (amt : Nat) (d : AccountId)
    (h : amt < STORAGE_COST) :
    donate c amt d = .error .insufficientAttachment := by
  unfold donate
  rw [if_pos h]

lemma donate_err_of_overflow (c : Contract) (amt : Nat) (d : AccountId)
    (hfee : STORAGE_COST ≤ amt)
    (hov : U128_BOUND ≤ get_donation_for_account c d + (amt - STORAGE_COST)) :
    donate c amt d = .error .overflow := by
  unfold get_donation_for_account at hov
  unfold donate
  rw [if_neg (Nat.not_lt.mpr hfee)]
  have : checked_add_u128 ((mapGet c.donations d).getD 0) (amt - STORAGE_COST) = none := by
    unfold checked_add_u128
    rw [if_pos hov]
  simp only [this]

lemma donate_eq_ok (c : Contract) (amt : Nat) (d : AccountId)
    (hfee : STORAGE_COST ≤ amt)
    (hov : get_donation_for_account c d + (amt - STORAGE_COST) < U128_BOUND) :
    donate c amt d =
      .ok ({ c with donations := mapInsert c.donations d (get_donation_for_account c d + (amt - STORAGE_COST)) },
           { receiver := c.beneficiary, amount := amt - STORAGE_COST }) := by
  unfold get_donation_for_account at hov ⊢
  unfold donate
  rw [if_neg (Nat.not_lt.mpr hfee)]
  have : checked_add_u128 ((mapGet c.donations d).getD 0) (amt - STORAGE_COST)
      = some ((mapGet c.donations d).getD 0 + (amt - STORAGE_COST)) := by
    unfold checked_add_u128
    rw [if_neg (Nat.not_le.mpr hov)]
  simp only [this]

/-! ### Claim theorems -/

/-- Claim C3: if the attached amount is below `STORAGE_COST`, `donate` fails
with `InsufficientAttachment` and, at the transaction level, the state
(hence `balances` and `count()`) is unchanged and no transfer is issued. -/
theorem donate_insufficient_attachment (c : Contract) (amt : Nat) (d : AccountId)
    (h : amt < STORAGE_COST) :
    donate c amt d = .error .insufficientAttachment ∧
    step_donate c amt d = (c, none) := by
  have he := donate_err_of_lt c amt d h
  refine ⟨he, ?_⟩
  unfold step_donate
  rw [he]

/-- Claim C3 witness: a concrete under-fee call fails with
`InsufficientAttachment` and leaves the state unchanged. -/
theorem donate_insufficient_attachment_witness :
    donate (Contract.new "beneficiary") (STORAGE_COST - 1) "donor_a"
      = .error .insufficientAttachment ∧
    step_donate (Contract.new "beneficiary") (STORAGE_COST - 1) "donor_a"
      = (Contract.new "beneficiary", none) :=
  donate_insufficient_attachment (Contract.new "beneficiary") (STORAGE_COST - 1)
    "donor_a" (by decide)

/-- Claim C2: if the caller balance plus the net amount would exceed the
largest `u128`, `donate` fails with `Overflow` (checked addition, no
wraparound) and, at the transaction level, the state is unchanged and no
transfer is issued. -/
theorem donate_overflow (c : Contract) (amt : Nat) (d : AccountId)
    (hfee : STORAGE_COST ≤ amt)
    (hov : U128_BOUND ≤ get_donation_for_account c d + (amt - STORAGE_COST)) :
    donate c amt d = .error .overflow ∧
    step_donate c amt d = (c, none) := by
  have he := donate_err_of_overflow c amt d hfee hov
  refine ⟨he, ?_⟩
  unfold step_donate
  rw [he]

/-- Claim C2 witness: a donor holding the largest `u128` balance makes a
further net-positive donation; the call fails with `Overflow` and the state is
unchanged. -/
theorem donate_overflow_witness :
    donate { beneficiary := "b", donations := [("donor_a", U128_BOUND - 1)] }
        (STORAGE_COST + 1) "donor_a"
      = .error .overflow ∧
    step_donate { beneficiary := "b", donations := [("donor_a", U128_BOUND - 1)] }
        (STORAGE_COST + 1) "donor_a"
      = ({ beneficiary := "b", donations := [("donor_a", U128_BOUND - 1)] }, none) :=
  donate_overflow { beneficiary := "b", donations := [("donor_a", U128_BOUND - 1)] }
    (STORAGE_COST + 1) "donor_a" (by decide) (by decide)

/-- Concrete one-entry state used in counterexamples and witnesses. -/
def cexContract : Contract :=
  { beneficiary := "b", donations := [("donor_a", 5)] }

/-- Claim C4 counterexample: with one recorded donation, the start index
`2 ^ 32` is at least `count()`, yet `get_donations` returns a non-empty list,
because the `u128` start index is cast to the 32-bit `usize` with `as`, which
reduces it modulo `2 ^ 32` to `0`. -/
theorem get_donations_truncation_cex :
    total_donations cexContract ≤ 2 ^ 32 ∧
    get_donations cexContract (some (2 ^ 32)) none ≠ [] := by
  constructor
  · decide
  · intro h
    simp only [get_donations, cexContract, USIZE_BOUND, Option.getD_some, Option.getD_none] at h
    rw [Nat.mod_self] at h
    simp at h

/-- Claim C4 amended: for every state, every limit, and every start index that
is at least `count()` and below `2 ^ 32` (the wasm32 `usize` range),
`get_donations` returns the empty list; it is a total function, so it never
panics. Start indices of `2 ^ 32` or more are truncated modulo `2 ^ 32` by the
`as usize` cast, so for them the call behaves as `start mod 2 ^ 32` instead. -/
theorem get_donations_out_of_range_empty (c : Contract) (start : Nat) (l : Option Nat)
    (h1 : total_donations c ≤ start) (h2 : start < USIZE_BOUND) :
    get_donations c (some start) l = [] := by
  unfold total_donations at h1
  unfold get_donations
  simp only [Option.getD_some]
  rw [Nat.mod_eq_of_lt h2, List.drop_eq_nil_of_le h1, List.take_nil]

/-- Claim C4 amended, witness: a start index of 5 on a one-entry state yields
the empty list. -/
theorem get_donations_out_of_range_empty_witness :
    total_donations cexContract ≤ 5 ∧ (5 : Nat) < USIZE_BOUND ∧
    get_donations cexContract (some 5) none = [] :=
  ⟨by decide, by decide,
    get_donations_out_of_range_empty cexContract 5 none (by decide) (by decide)⟩

lemma join_take_drop (L : Nat) :
    ∀ (k : Nat) (xs : List (AccountId × Nat)), xs.length ≤ k * L →
      ((List.range k).map (fun i => (xs.drop (i * L)).take L)).flatten = xs
  | 0, xs, h => by
    have hx : xs = [] := List.eq_nil_of_length_eq_zero (Nat.le_zero.mp (by simpa using h))
    simp [hx]
  | k + 1, xs, h => by
    rw [List.range_succ_eq_map, List.map_cons, List.flatten_cons, List.map_map]
    have hlen : (xs.drop L).length ≤ k * L := by
      rw [List.length_drop]
      exact Nat.sub_le_iff_le_add.mpr (by rw [← Nat.succ_mul]; exact h)
    have hmap : (List.range k).map ((fun i => (xs.drop (i * L)).take L) ∘ Nat.succ)
        = (List.range k).map (fun i => ((xs.drop L).drop (i * L)).take L) := by
      refine List.map_congr_left fun i _ => ?_
      simp only [Function.comp_apply]
      rw [List.drop_drop, Nat.succ_mul, Nat.add_comm]
    rw [hmap, join_take_drop L k (xs.drop L) hlen]
    simp

/-- Claim C5: `get_donations` returns at most `limit` entries (default 50);
omitted arguments behave as start 0 and limit 50; and the concatenation of the
pages at starts `0, L, 2L, …` covering the whole map (no index reaching the
`usize` truncation threshold) reproduces the donations list exactly. -/
theorem get_donations_pagination (c : Contract) (s l : Option Nat) (L k : Nat)
    (h1 : total_donations c ≤ k * L) (h2 : k * L < USIZE_BOUND) :
    (get_donations c s l).length ≤ l.getD 50 ∧
    get_donations c none none = get_donations c (some 0) (some 50) ∧
    ((List.range k).map (fun i => get_donations c (some (i * L)) (some L))).flatten
      = c.donations := by
  refine ⟨?_, rfl, ?_⟩
  · exact le_trans (List.length_take_le _ _) (Nat.mod_le _ _)
  · have hpages : ∀ i ∈ List.range k, get_donations c (some (i * L)) (some L)
        = (c.donations.drop (i * L)).take L := by
      intro i hi
      have hik : i < k := List.mem_range.mp hi
      have hiL : i * L < USIZE_BOUND :=
        Nat.lt_of_le_of_lt (Nat.mul_le_mul (Nat.le_of_lt hik) (Nat.le_refl L)) h2
      have hLB : L < USIZE_BOUND := by
        have h1k : 1 ≤ k := Nat.lt_of_le_of_lt (Nat.zero_le i) hik
        exact Nat.lt_of_le_of_lt (by simpa using Nat.mul_le_mul h1k (Nat.le_refl L)) h2
      unfold get_donations
      simp only [Option.getD_some]
      rw [Nat.mod_eq_of_lt hiL, Nat.mod_eq_of_lt hLB]
    rw [List.map_congr_left hpages]
    exact join_take_drop L k c.donations (by simpa [total_donations] using h1)

/-- Claim C5 witness: a two-entry state paged with `L = 1`, `k = 2`. -/
theorem get_donations_pagination_witness :
    (get_donations cexContract none none).length ≤ 50 ∧
    get_donations cexContract none none = get_donations cexContract (some 0) (some 50) ∧
    ((List.range 2).map
        (fun i => get_donations cexContract (some (i * 1)) (some 1))).flatten
      = cexContract.donations := by
  have h := get_donations_pagination cexContract none none 1 2 (by decide) (by decide)
  simpa using h

lemma mapGet_mapInsert (k a : AccountId) (v : Nat) :
    ∀ (m : List (AccountId × Nat)),
      mapGet (mapInsert m k v) a = if a = k then some v else mapGet m a
  | [] => by
    unfold mapInsert mapGet
    by_cases h : a = k
    · rw [if_pos h.symm, if_pos h]
    · rw [if_neg (fun hk => h hk.symm), if_neg h]
      rfl
  | (k0, w) :: rest => by
    by_cases hk : k0 = k
    · subst hk
      simp only [mapInsert, if_pos rfl, mapGet]
      by_cases ha : k0 = a
      · rw [if_pos ha, if_pos ha.symm]
      · rw [if_neg ha, if_neg (fun h => ha h.symm), if_neg ha]
    · simp only [mapInsert, if_neg hk, mapGet]
      by_cases ha : k0 = a
      · rw [if_pos ha, if_neg (fun h : a = k => hk (ha.trans h)), if_pos ha]
      · rw [if_neg ha, mapGet_mapInsert k a v rest, if_neg ha]

lemma get_donation_mapInsert (c : Contract) (d id : AccountId) (v : Nat) :
    get_donation_for_account { c with donations := mapInsert c.donations d v } id
      = if id = d then v else get_donation_for_account c id := by
  show (mapGet (mapInsert c.donations d v) id).getD 0
      = if id = d then v else get_donation_for_account c id
  rw [mapGet_mapInsert]
  by_cases h : id = d
  · rw [if_pos h, if_pos h]
    rfl
  · rw [if_neg h, if_neg h]
    rfl

lemma netSum_cons (id d : AccountId) (amt : Nat) (evts : List (AccountId × Nat)) :
    netSum id ((d, amt) :: evts)
      = (if d = id then amt - STORAGE_COST else 0) + netSum id evts := by
  unfold netSum
  by_cases h : d = id
  · simp [List.filter_cons, h]
  · simp [List.filter_cons, h]

lemma lookup_run (id : AccountId) :
    ∀ (evts : List (AccountId × Nat)) (c : Contract),
      get_donation_for_account (runDonations c evts) id
        = get_donation_for_account c id + netSum id (successEvents c evts)
  | [], c => by simp [runDonations, successEvents, netSum]
  | (d, amt) :: rest, c => by
    by_cases hfee : amt < STORAGE_COST
    · simp only [runDonations, successEvents, donate_err_of_lt c amt d hfee]
      exact lookup_run id rest c
    · by_cases hov : U128_BOUND ≤ get_donation_for_account c d + (amt - STORAGE_COST)
      · simp only [runDonations, successEvents,
          donate_err_of_overflow c amt d (Nat.not_lt.mp hfee) hov]
        exact lookup_run id rest c
      · simp only [runDonations, successEvents,
          donate_eq_ok c amt d (Nat.not_lt.mp hfee) (Nat.not_le.mp hov)]
        rw [lookup_run id rest _, netSum_cons, get_donation_mapInsert]
        by_cases hid : id = d
        · subst hid
          rw [if_pos rfl, if_pos rfl]
          omega
        · rw [if_neg hid, if_neg (fun h => hid h.symm)]
          omega

/-- Claim C1: after any sequence of `donate` calls starting from a fresh
contract, `get_donation_for_account id` equals the sum of
(attached − STORAGE_COST) over exactly the calls by `id` that did not fail;
in particular it is 0 when `id` never donated successfully, since the sum over
an empty filtered list is 0. -/
theorem lookup_eq_net_sum_of_successes (b id : AccountId)
    (evts : List (AccountId × Nat)) :
    get_donation_for_account (runDonations (Contract.new b) evts) id
      = netSum id (successEvents (Contract.new b) evts) := by
  rw [lookup_run id evts (Contract.new b)]
  show (mapGet [] id).getD 0 + _ = _
  rw [mapGet]
  exact Nat.zero_add _

/-- Add a key at the end unless it is already present: how the key vector of
the `UnorderedMap` evolves under `mapInsert`. -/
def insertNewKey (ks : List AccountId) (d : AccountId) : List AccountId :=
  if d ∈ ks then ks else ks ++ [d]

lemma keys_mapInsert (k : AccountId) (v : Nat) :
    ∀ (m : List (AccountId × Nat)),
      (mapInsert m k v).map Prod.fst = insertNewKey (m.map Prod.fst) k
  | [] => by simp [mapInsert, insertNewKey]
  | (k0, w) :: rest => by
    by_cases hk : k0 = k
    · subst hk
      simp [mapInsert, insertNewKey]
    · simp only [mapInsert, if_neg hk, List.map_cons, keys_mapInsert k v rest,
        insertNewKey]
      by_cases hm : k ∈ rest.map Prod.fst
      · rw [if_pos hm, if_pos (List.mem_cons_of_mem k0 hm)]
      · rw [if_neg hm, if_neg ?_, List.cons_append]
        intro hmem
        rcases List.mem_cons.mp hmem with h | h
        · exact hk h.symm
        · exact hm h

lemma keys_run :
    ∀ (evts : List (AccountId × Nat)) (c : Contract),
      (runDonations c evts).donations.map Prod.fst
        = List.foldl insertNewKey (c.donations.map Prod.fst)
            ((successEvents c evts).map Prod.fst)
  | [], c => by simp [runDonations, successEvents]
  | (d, amt) :: rest, c => by
    by_cases hfee : amt < STORAGE_COST
    · simp only [runDonations, successEvents, donate_err_of_lt c amt d hfee]
      exact keys_run rest c
    · by_cases hov : U128_BOUND ≤ get_donation_for_account c d + (amt - STORAGE_COST)
      · simp only [runDonations, successEvents,
          donate_err_of_overflow c amt d (Nat.not_lt.mp hfee) hov]
        exact keys_run rest c
      · simp only [runDonations, successEvents,
          donate_eq_ok c amt d (Nat.not_lt.mp hfee) (Nat.not_le.mp hov),
          List.map_cons, List.foldl_cons]
        rw [keys_run rest _]
        show List.foldl insertNewKey ((mapInsert c.donations d _).map Prod.fst) _ = _
        rw [keys_mapInsert]

lemma toFinset_insertNewKey (ks : List AccountId) (d : AccountId) :
    (insertNewKey ks d).toFinset = insert d ks.toFinset := by
  unfold insertNewKey
  by_cases hd : d ∈ ks
  · rw [if_pos hd]
    exact (Finset.insert_eq_self.mpr (List.mem_toFinset.mpr hd)).symm
  · rw [if_neg hd]
    ext x
    simp [List.mem_toFinset, or_comm]

lemma nodup_insertNewKey (ks : List AccountId) (d : AccountId) (h : ks.Nodup) :
    (insertNewKey ks d).Nodup := by
  unfold insertNewKey
  by_cases hd : d ∈ ks
  · rw [if_pos hd]
    exact h
  · rw [if_neg hd]
    rw [List.nodup_append]
    refine ⟨h, List.nodup_singleton d, fun a ha had => ?_⟩
    rw [List.mem_singleton] at had
    exact hd (had ▸ ha)

lemma nodup_foldl_insertNewKey :
    ∀ (ds : List AccountId) (ks : List AccountId), ks.Nodup →
      (List.foldl insertNewKey ks ds).Nodup
  | [], _, h => h
  | d :: ds, ks, h => by
    simp only [List.foldl_cons]
    exact nodup_foldl_insertNewKey ds _ (nodup_insertNewKey ks d h)

lemma toFinset_foldl_insertNewKey :
    ∀ (ds : List AccountId) (ks : List AccountId),
      (List.foldl insertNewKey ks ds).toFinset = ks.toFinset ∪ ds.toFinset
  | [], ks => by simp
  | d :: ds, ks => by
    simp only [List.foldl_cons, toFinset_foldl_insertNewKey ds _,
      toFinset_insertNewKey, List.toFinset_cons]
    ext x
    simp

/-- Claim C6: after any sequence of `donate` calls starting from a fresh
contract, `total_donations` equals the number of distinct donor identities
among the calls that succeeded: a successful donation by a new donor appends
one entry, a repeated donor overwrites the existing entry in place. -/
theorem count_eq_distinct_successful_donors (b : AccountId)
    (evts : List (AccountId × Nat)) :
    total_donations (runDonations (Contract.new b) evts)
      = ((successEvents (Contract.new b) evts).map Prod.fst).toFinset.card := by
  have hkeys := keys_run evts (Contract.new b)
  have hnil : (Contract.new b).donations.map Prod.fst = [] := rfl
  rw [hnil] at hkeys
  have hnodup : ((runDonations (Contract.new b) evts).donations.map Prod.fst).Nodup := by
    rw [hkeys]
    exact nodup_foldl_insertNewKey _ _ List.nodup_nil
  have hcard := List.toFinset_card_of_nodup hnodup
  rw [hkeys, toFinset_foldl_insertNewKey] at hcard
  simp only [List.toFinset_nil, Finset.empty_union] at hcard
  calc total_donations (runDonations (Contract.new b) evts)
      = ((runDonations (Contract.new b) evts).donations.map Prod.fst).length := by
        simp [total_donations]
    _ = _ := by
        rw [hkeys, ← hcard]

/-- Claim C7: every recorded balance is non-negative, and no operation of the
contract decreases the balance of any key: `donate` (successful or failed, via
`step_donate`) and `change_beneficiary` never decrease it, and the reads leave
the state untouched. -/
theorem balances_nonneg_monotone (c : Contract) (amt : Nat) (d a id : AccountId)
    (s l : Option Nat) :
    0 ≤ get_donation_for_account c id ∧
    get_donation_for_account c id
      ≤ get_donation_for_account (step_donate c amt d).1 id ∧
    get_donation_for_account c id
      ≤ get_donation_for_account (change_beneficiary c a) id ∧
    get_donation_for_account (read_lookup c id).2 id = get_donation_for_account c id ∧
    get_donation_for_account (read_count c).2 id = get_donation_for_account c id ∧
    get_donation_for_account (read_list c s l).2 id = get_donation_for_account c id := by
  refine ⟨Nat.zero_le _, ?_, Nat.le_refl _, rfl, rfl, rfl⟩
  by_cases hfee : amt < STORAGE_COST
  · simp [step_donate, donate_err_of_lt c amt d hfee]
  · by_cases hov : U128_BOUND ≤ get_donation_for_account c d + (amt - STORAGE_COST)
    · simp [step_donate, donate_err_of_overflow c amt d (Nat.not_lt.mp hfee) hov]
    · simp only [step_donate, donate_eq_ok c amt d (Nat.not_lt.mp hfee) (Nat.not_le.mp hov)]
      rw [get_donation_mapInsert]
      by_cases hid : id = d
      · subst hid
        rw [if_pos rfl]
        exact Nat.le_add_right _ _
      · rw [if_neg hid]

/-- Claim C8: the reads (`get_donation_for_account`, `total_donations`,
`get_donations`) take the state by shared reference, so repeating any of them
with the same arguments and no intervening mutation returns an identical
result and leaves the state unchanged. -/
theorem reads_idempotent (c : Contract) (id : AccountId) (s l : Option Nat) :
    (read_lookup c id).2 = c ∧
    read_lookup (read_lookup c id).2 id = read_lookup c id ∧
    (read_count c).2 = c ∧
    read_count (read_count c).2 = read_count c ∧
    (read_list c s l).2 = c ∧
    read_list (read_list c s l).2 s l = read_list c s l :=
  ⟨rfl, rfl, rfl, rfl, rfl, rfl⟩

lemma mapInsert_eq_append (d : AccountId) (v : Nat) :
    ∀ (m : List (AccountId × Nat)), mapGet m d = none → mapInsert m d v = m ++ [(d, v)]
  | [], _ => rfl
  | (k0, w) :: rest, h => by
    unfold mapGet at h
    by_cases hk : k0 = d
    · rw [if_pos hk] at h
      exact absurd h (by simp)
    · rw [if_neg hk] at h
      unfold mapInsert
      rw [if_neg hk, mapInsert_eq_append d v rest h, List.cons_append]

lemma donate_ok_cases (c : Contract) (amt : Nat) (d : AccountId)
    (c' : Contract) (t : Transfer) (h : donate c amt d = .ok (c', t)) :
    c' = { c with donations := mapInsert c.donations d (get_donation_for_account c d + (amt - STORAGE_COST)) } ∧
    t = { receiver := c.beneficiary, amount := amt - STORAGE_COST } := by
  by_cases hfee : amt < STORAGE_COST
  · rw [donate_err_of_lt c amt d hfee] at h
    exact absurd h (by simp)
  · by_cases hov : U128_BOUND ≤ get_donation_for_account c d + (amt - STORAGE_COST)
    · rw [donate_err_of_overflow c amt d (Nat.not_lt.mp hfee) hov] at h
      exact absurd h (by simp)
    · rw [donate_eq_ok c amt d (Nat.not_lt.mp hfee) (Nat.not_le.mp hov)] at h
      simp only [Except.ok.injEq, Prod.mk.injEq] at h
      exact ⟨h.1.symm, h.2.symm⟩

/-- Claim C9: a `donate` call attaching exactly `STORAGE_COST` succeeds with
net amount 0: for a caller with no existing entry it appends the entry
(caller, 0) at the end of the map, so `total_donations` grows by one, the
caller is enumerated by `get_donations` with amount 0, and a transfer of 0
units to the beneficiary is issued. -/
theorem donate_exact_fee (c : Contract) (d : AccountId)
    (hnew : mapGet c.donations d = none)
    (hlen : total_donations c < USIZE_BOUND) :
    donate c STORAGE_COST d
      = .ok ({ c with donations := c.donations ++ [(d, 0)] },
             { receiver := c.beneficiary, amount := 0 }) ∧
    get_donation_for_account { c with donations := c.donations ++ [(d, 0)] } d = 0 ∧
    total_donations { c with donations := c.donations ++ [(d, 0)] }
      = total_donations c + 1 ∧
    get_donations { c with donations := c.donations ++ [(d, 0)] }
        (some (total_donations c)) (some 1) = [(d, 0)] := by
  have hcur : get_donation_for_account c d = 0 := by
    unfold get_donation_for_account
    rw [hnew]
    rfl
  have hov : get_donation_for_account c d + (STORAGE_COST - STORAGE_COST) < U128_BOUND := by
    rw [hcur, Nat.sub_self]
    decide
  have hok := donate_eq_ok c STORAGE_COST d (Nat.le_refl _) hov
  rw [hcur, Nat.sub_self, Nat.zero_add, mapInsert_eq_append d 0 c.donations hnew] at hok
  refine ⟨hok, ?_, ?_, ?_⟩
  · show (mapGet (c.donations ++ [(d, 0)]) d).getD 0 = 0
    rw [← mapInsert_eq_append d 0 c.donations hnew, mapGet_mapInsert, if_pos rfl]
    rfl
  · show (c.donations ++ [(d, 0)]).length = c.donations.length + 1
    rw [List.length_append]
    rfl
  · show ((c.donations ++ [(d, 0)]).drop (total_donations c % USIZE_BOUND)).take
        (1 % USIZE_BOUND) = [(d, 0)]
    unfold total_donations at hlen ⊢
    rw [Nat.mod_eq_of_lt hlen, Nat.mod_eq_of_lt (by decide : (1 : Nat) < USIZE_BOUND),
      List.drop_left]
    rfl

/-- Claim C9 witness: a first-time donor attaching exactly `STORAGE_COST` on a
fresh contract is recorded with amount 0, raises the count to 1, is listed with
amount 0, and a transfer of 0 is issued. -/
theorem donate_exact_fee_witness :
    donate (Contract.new "b") STORAGE_COST "donor_a"
      = .ok ({ Contract.new "b" with
                 donations := (Contract.new "b").donations ++ [("donor_a", 0)] },
             { receiver := (Contract.new "b").beneficiary, amount := 0 }) ∧
    get_donation_for_account
        { Contract.new "b" with
            donations := (Contract.new "b").donations ++ [("donor_a", 0)] } "donor_a"
      = 0 ∧
    total_donations
        { Contract.new "b" with
            donations := (Contract.new "b").donations ++ [("donor_a", 0)] }
      = total_donations (Contract.new "b") + 1 ∧
    get_donations
        { Contract.new "b" with
            donations := (Contract.new "b").donations ++ [("donor_a", 0)] }
        (some (total_donations (Contract.new "b"))) (some 1) = [("donor_a", 0)] :=
  donate_exact_fee (Contract.new "b") "donor_a" rfl (by decide)

/-- Claim C10: each mutating operation touches only its own field. A successful
`donate` keeps the beneficiary, and `change_beneficiary` keeps the donations
map, so `get_donation_for_account`, `total_donations` and `get_donations` are
unchanged by it. -/
theorem frame_effects (c c' : Contract) (t : Transfer) (amt : Nat)
    (a d id : AccountId) (s l : Option Nat)
    (h : donate c amt d = .ok (c', t)) :
    beneficiary c' = beneficiary c ∧
    (change_beneficiary c a).donations = c.donations ∧
    get_donation_for_account (change_beneficiary c a) id
      = get_donation_for_account c id ∧
    total_donations (change_beneficiary c a) = total_donations c ∧
    get_donations (change_beneficiary c a) s l = get_donations c s l := by
  refine ⟨?_, rfl, rfl, rfl, rfl⟩
  obtain ⟨hc, -⟩ := donate_ok_cases c amt d c' t h
  rw [hc]
  rfl

/-- Claim C10 witness: a concrete successful donation keeps the beneficiary,
and a concrete beneficiary change keeps all read results. -/
theorem frame_effects_witness :
    beneficiary { beneficiary := "b", donations := [("donor_a", 7)] }
      = beneficiary (Contract.new "b") ∧
    (change_beneficiary (Contract.new "b") "new_b").donations
      = (Contract.new "b").donations ∧
    get_donation_for_account (change_beneficiary (Contract.new "b") "new_b") "donor_a"
      = get_donation_for_account (Contract.new "b") "donor_a" ∧
    total_donations (change_beneficiary (Contract.new "b") "new_b")
      = total_donations (Contract.new "b") ∧
    get_donations (change_beneficiary (Contract.new "b") "new_b") none none
      = get_donations (Contract.new "b") none none :=
  frame_effects (Contract.new "b")
    { beneficiary := "b", donations := [("donor_a", 7)] }
    { receiver := "b", amount := 7 } (STORAGE_COST + 7) "new_b" "donor_a" "donor_a"
    none none (by rfl)
